import Mathlib

/-!
# Verification of the kubectl-ai resource/metrics collection core

Shallow embedding of the resource discovery, gathering and metrics
collection pipeline of `helmcode/kubectl-ai` (Go), together with proofs
settling the frozen specification claims.

Conventions of the embedding:
* Go `float64` values are modelled as rationals (`ℚ`); the claims under
  scrutiny are about the algorithms (mean / max / min / threshold
  comparisons), not about rounding of IEEE arithmetic.
* Go `time.Time` / `time.Duration` values are modelled as `Int`
  nanoseconds.  Where Go's 64-bit overflow behaviour is observable
  (duration multiplication in `parseDuration`) it is modelled explicitly
  with a two's-complement wrap (`wrap64`).
* Fallible Go calls (`(T, error)` returns) become `Option`/`Except`.
* Network and cluster effects (typed/dynamic Kubernetes gets, Prometheus
  HTTP queries, the port-forward subprocess) are passed in as explicit
  oracle functions inside a "world" record; the embedded functions
  reproduce the control flow of the source around those calls.
-/

namespace KubectlAI

/-! ## pkg/metrics: time-series samples and statistics -/

/-- `TimestampedValue` from `pkg/metrics/types.go`: one Prometheus sample.
Timestamp in Unix nanoseconds, value a `float64` modelled as `ℚ`. -/
structure TimestampedValue where
  timestamp : Int
  value : ℚ
deriving DecidableEq

/-- `calculateStats` from `pkg/metrics/prometheus.go` (lines 542-565):
returns `(average, peak, minimum, current)`.  The empty series yields all
zeros; otherwise `current` is the last sample's value taken before a single
loop accumulates the sum and the running max/min, both seeded with the
first sample's value, and `average = sum / len`. -/
def calculateStats (values : List TimestampedValue) : ℚ × ℚ × ℚ × ℚ :=
  match values with
  | [] => (0, 0, 0, 0)
  | v0 :: rest =>
    let current := ((v0 :: rest).getLast (List.cons_ne_nil v0 rest)).value
    let acc := (v0 :: rest).foldl
      (fun (a : ℚ × ℚ × ℚ) v =>
        (a.1 + v.value,
         if v.value > a.2.1 then v.value else a.2.1,
         if v.value < a.2.2 then v.value else a.2.2))
      ((0 : ℚ), v0.value, v0.value)
    (acc.1 / ((v0 :: rest).length : ℚ), acc.2.1, acc.2.2, current)

/-- `calculateTrend` from the metrics analyzer: series with fewer than two
samples are "stable"; otherwise compare last against first with a 10%
threshold (`0.1` modelled as `1/10`). -/
def calculateTrend (values : List TimestampedValue) : String :=
  match values with
  | [] => "stable"
  | [_] => "stable"
  | v0 :: v1 :: rest =>
    let first := v0.value
    let last := ((v0 :: v1 :: rest).getLast (List.cons_ne_nil v0 (v1 :: rest))).value
    let diff := last - first
    if diff > first * (1/10) then "increasing"
    else if diff < -(first * (1/10)) then "decreasing"
    else "stable"

/-- Step selection inside `queryRange` (`pkg/metrics/prometheus.go` lines
446-459): the step string is chosen from the span `endTime - startTime`
(nanoseconds) alone. -/
def stepForSpan (span : Int) : String :=
  if span ≤ 6 * 3600000000000 then "300"
  else if span ≤ 24 * 3600000000000 then "900"
  else if span ≤ 7 * 24 * 3600000000000 then "3600"
  else "7200"

/-! ### Helper lemmas about the statistics fold -/

/-- Running max update used by `calculateStats`. -/
def statMax (p x : ℚ) : ℚ := if x > p then x else p

/-- Running min update used by `calculateStats`. -/
def statMin (p x : ℚ) : ℚ := if x < p then x else p

lemma calculateStats_fold_eq (l : List TimestampedValue) :
    ∀ (s p m : ℚ),
      l.foldl
        (fun (a : ℚ × ℚ × ℚ) v =>
          (a.1 + v.value,
           if v.value > a.2.1 then v.value else a.2.1,
           if v.value < a.2.2 then v.value else a.2.2))
        (s, p, m)
      = (s + (l.map TimestampedValue.value).sum,
         (l.map TimestampedValue.value).foldl statMax p,
         (l.map TimestampedValue.value).foldl statMin m) := by
  induction l with
  | nil => intro s p m; simp
  | cons v t ih =>
    intro s p m
    simp only [List.foldl_cons, List.map_cons, List.sum_cons]
    rw [ih]
    refine congrArg (fun x => (x, _, _)) ?_
    ring

lemma foldl_statMax_ge_init : ∀ (l : List ℚ) (p : ℚ), p ≤ l.foldl statMax p := by
  intro l
  induction l with
  | nil => intro p; simp
  | cons x t ih =>
    intro p
    simp only [List.foldl_cons]
    refine le_trans ?_ (ih (statMax p x))
    unfold statMax
    split <;> [exact le_of_lt (by assumption); exact le_refl p]

lemma foldl_statMax_ge_mem : ∀ (l : List ℚ) (p : ℚ), ∀ x ∈ l, x ≤ l.foldl statMax p := by
  intro l
  induction l with
  | nil => intro p x hx; simp at hx
  | cons y t ih =>
    intro p x hx
    rcases List.mem_cons.mp hx with h | h
    · subst h
      simp only [List.foldl_cons]
      refine le_trans ?_ (foldl_statMax_ge_init t (statMax p x))
      unfold statMax
      split <;> [exact le_refl x; exact le_of_not_lt (by assumption)]
    · simpa using ih (statMax p y) x h

lemma foldl_statMax_mem : ∀ (l : List ℚ) (p : ℚ), l.foldl statMax p = p ∨ l.foldl statMax p ∈ l := by
  intro l
  induction l with
  | nil => intro p; left; rfl
  | cons y t ih =>
    intro p
    rcases ih (statMax p y) with h | h
    · simp only [List.foldl_cons]
      rw [h]
      unfold statMax
      split
      · right; exact List.mem_cons_self y t
      · left; rfl
    · right
      simp only [List.foldl_cons]
      exact List.mem_cons_of_mem y h

lemma foldl_statMin_le_init : ∀ (l : List ℚ) (p : ℚ), l.foldl statMin p ≤ p := by
  intro l
  induction l with
  | nil => intro p; simp
  | cons x t ih =>
    intro p
    simp only [List.foldl_cons]
    refine le_trans (ih (statMin p x)) ?_
    unfold statMin
    split <;> [exact le_of_lt (by assumption); exact le_refl p]

lemma foldl_statMin_le_mem : ∀ (l : List ℚ) (p : ℚ), ∀ x ∈ l, l.foldl statMin p ≤ x := by
  intro l
  induction l with
  | nil => intro p x hx; simp at hx
  | cons y t ih =>
    intro p x hx
    rcases List.mem_cons.mp hx with h | h
    · subst h
      simp only [List.foldl_cons]
      refine le_trans (foldl_statMin_le_init t (statMin p x)) ?_
      unfold statMin
      split <;> [exact le_refl x; exact le_of_not_lt (by assumption)]
    · simpa using ih (statMin p y) x h

lemma foldl_statMin_mem : ∀ (l : List ℚ) (p : ℚ), l.foldl statMin p = p ∨ l.foldl statMin p ∈ l := by
  intro l
  induction l with
  | nil => intro p; left; rfl
  | cons y t ih =>
    intro p
    rcases ih (statMin p y) with h | h
    · simp only [List.foldl_cons]
      rw [h]
      unfold statMin
      split
      · right; exact List.mem_cons_self y t
      · left; rfl
    · right
      simp only [List.foldl_cons]
      exact List.mem_cons_of_mem y h

/-! ## Claim C5: step selection -/

/-- C5: range-query step selection is a pure function of the span between
start and end times: spans up to 6 hours give step 300, spans between 6
and 24 hours give 900, spans between 24 hours and 7 days give 3600, and
longer spans give 7200 (the code emits the step as a decimal string). -/
theorem stepForSpan_tiers (span : Int) :
    (span ≤ 6 * 3600000000000 → stepForSpan span = "300") ∧
    (6 * 3600000000000 < span → span ≤ 24 * 3600000000000 → stepForSpan span = "900") ∧
    (24 * 3600000000000 < span → span ≤ 7 * 24 * 3600000000000 → stepForSpan span = "3600") ∧
    (7 * 24 * 3600000000000 < span → stepForSpan span = "7200") := by
  unfold stepForSpan
  refine ⟨fun h1 => ?_, fun h1 h2 => ?_, fun h1 h2 => ?_, fun h1 => ?_⟩ <;>
    split <;> first | rfl | omega | (split <;> first | rfl | omega | (split <;> first | rfl | omega))

/-- Witness for C5 at the spec's concrete spans: 3h, 24h, 7d and 10d
(in nanoseconds). -/
theorem stepForSpan_tiers_witness :
    stepForSpan (3 * 3600000000000) = "300" ∧
    stepForSpan (24 * 3600000000000) = "900" ∧
    stepForSpan (7 * 24 * 3600000000000) = "3600" ∧
    stepForSpan (10 * 24 * 3600000000000) = "7200" :=
  ⟨(stepForSpan_tiers (3 * 3600000000000)).1 (by decide),
   (stepForSpan_tiers (24 * 3600000000000)).2.1 (by decide) (by decide),
   (stepForSpan_tiers (7 * 24 * 3600000000000)).2.2.1 (by decide) (by decide),
   (stepForSpan_tiers (10 * 24 * 3600000000000)).2.2.2 (by decide)⟩

/-! ## Claim C6: statistics reduction -/

/-- C6: `calculateStats` returns average = arithmetic mean, peak = maximum
of the values (an upper bound that is attained), minimum = minimum of the
values (a lower bound that is attained), current = the chronologically
last sample's value, and all zeros for the empty series. -/
theorem calculateStats_spec :
    calculateStats [] = (0, 0, 0, 0) ∧
    ∀ (l : List TimestampedValue) (h : l ≠ []),
      (calculateStats l).1 = (l.map TimestampedValue.value).sum / (l.length : ℚ) ∧
      (∀ v ∈ l, v.value ≤ (calculateStats l).2.1) ∧
      (calculateStats l).2.1 ∈ l.map TimestampedValue.value ∧
      (∀ v ∈ l, (calculateStats l).2.2.1 ≤ v.value) ∧
      (calculateStats l).2.2.1 ∈ l.map TimestampedValue.value ∧
      (calculateStats l).2.2.2 = (l.getLast h).value := by
  refine ⟨rfl, ?_⟩
  intro l h
  match l with
  | v0 :: rest =>
    have hcs : calculateStats (v0 :: rest)
        = (((v0 :: rest).map TimestampedValue.value).sum / (((v0 :: rest).length : ℚ)),
           ((v0 :: rest).map TimestampedValue.value).foldl statMax v0.value,
           ((v0 :: rest).map TimestampedValue.value).foldl statMin v0.value,
           ((v0 :: rest).getLast (List.cons_ne_nil v0 rest)).value) := by
      simp only [calculateStats, calculateStats_fold_eq, zero_add]
    rw [hcs]
    refine ⟨rfl, ?_, ?_, ?_, ?_, rfl⟩
    · intro v hv
      exact foldl_statMax_ge_mem _ v0.value v.value (List.mem_map_of_mem _ hv)
    · rcases foldl_statMax_mem ((v0 :: rest).map TimestampedValue.value) v0.value with hp | hp
      · rw [hp]; exact List.mem_map_of_mem _ (List.mem_cons_self v0 rest)
      · exact hp
    · intro v hv
      exact foldl_statMin_le_mem _ v0.value v.value (List.mem_map_of_mem _ hv)
    · rcases foldl_statMin_mem ((v0 :: rest).map TimestampedValue.value) v0.value with hp | hp
      · rw [hp]; exact List.mem_map_of_mem _ (List.mem_cons_self v0 rest)
      · exact hp

/-- Witness for C6 on the spec's example series
`[(t0,10),(t1,30),(t2,20)]`: the full result is `(20, 30, 10, 20)` and the
peak bound from the claim theorem holds there. -/
theorem calculateStats_spec_witness :
    calculateStats [⟨0, 10⟩, ⟨1, 30⟩, ⟨2, 20⟩] = (20, 30, 10, 20) ∧
    (calculateStats [⟨0, 10⟩, ⟨1, 30⟩, ⟨2, 20⟩]).2.2.2
      = (([⟨0, 10⟩, ⟨1, 30⟩, ⟨2, 20⟩] : List TimestampedValue).getLast (by decide)).value :=
  ⟨by simp only [calculateStats, List.foldl_cons, List.foldl_nil, List.getLast]; norm_num,
   (calculateStats_spec.2 [⟨0, 10⟩, ⟨1, 30⟩, ⟨2, 20⟩] (by decide)).2.2.2.2.2⟩

/-! ## Claim C7: trend classification -/

/-- C7 counterexample, two independent failures of the claim as stated.
(a) On the one-sample series with value `-100` we have
`last - first = 0 > -10 = 10% of first`, so the claim requires
"increasing", yet the code returns "stable" (every series with fewer than
two samples is "stable").
(b) On `first = -100, last = -95` the value is below the first by more
than 10% of the first (`-95 - (-100) = 5 < 10 = -(10% of first)`), so the
claim requires "decreasing", yet the code returns "increasing" because
the increasing test is checked first and `5 > -10`. -/
theorem calculateTrend_counterexample :
    (calculateTrend [⟨0, -100⟩] = "stable" ∧
      ((⟨0, -100⟩ : TimestampedValue).value - (⟨0, -100⟩ : TimestampedValue).value
        > (⟨0, -100⟩ : TimestampedValue).value * (1/10)) ∧
      calculateTrend [⟨0, -100⟩] ≠ "increasing") ∧
    (calculateTrend [⟨0, -100⟩, ⟨1, -95⟩] = "increasing" ∧
      ((-95 : ℚ) - (-100) < -((-100 : ℚ) * (1/10))) ∧
      calculateTrend [⟨0, -100⟩, ⟨1, -95⟩] ≠ "decreasing") := by
  refine ⟨⟨rfl, by norm_num, by decide⟩, ⟨?_, by norm_num, ?_⟩⟩
  · show calculateTrend [⟨0, -100⟩, ⟨1, -95⟩] = "increasing"
    simp only [calculateTrend, List.getLast]
    norm_num
  · show calculateTrend [⟨0, -100⟩, ⟨1, -95⟩] ≠ "decreasing"
    simp only [calculateTrend, List.getLast]
    norm_num
    decide

/-- C7 amended: for every series with at least two samples, the result is
"increasing" iff `last - first > first * 1/10`; otherwise "decreasing"
iff additionally `last - first < -(first * 1/10)` (the increasing test has
priority when both thresholds hold, which can happen for negative first
values); "stable" iff neither; and every series with fewer than two
samples is classified "stable". -/
theorem calculateTrend_amended :
    (∀ (v0 v1 : TimestampedValue) (rest : List TimestampedValue),
      (calculateTrend (v0 :: v1 :: rest) = "increasing" ↔
        ((v0 :: v1 :: rest).getLast (List.cons_ne_nil v0 (v1 :: rest))).value - v0.value
          > v0.value * (1/10)) ∧
      (calculateTrend (v0 :: v1 :: rest) = "decreasing" ↔
        ((¬ ((v0 :: v1 :: rest).getLast (List.cons_ne_nil v0 (v1 :: rest))).value - v0.value
            > v0.value * (1/10)) ∧
         ((v0 :: v1 :: rest).getLast (List.cons_ne_nil v0 (v1 :: rest))).value - v0.value
          < -(v0.value * (1/10)))) ∧
      (calculateTrend (v0 :: v1 :: rest) = "stable" ↔
        (¬ ((v0 :: v1 :: rest).getLast (List.cons_ne_nil v0 (v1 :: rest))).value - v0.value
            > v0.value * (1/10)) ∧
        (¬ ((v0 :: v1 :: rest).getLast (List.cons_ne_nil v0 (v1 :: rest))).value - v0.value
            < -(v0.value * (1/10))))) ∧
    (∀ l : List TimestampedValue, l.length < 2 → calculateTrend l = "stable") := by
  constructor
  · intro v0 v1 rest
    simp only [calculateTrend]
    split
    · rename_i hgt
      exact ⟨⟨fun _ => hgt, fun _ => rfl⟩,
        ⟨fun h => absurd h (by decide), fun hc => absurd hgt hc.1⟩,
        ⟨fun h => absurd h (by decide), fun hn => absurd hgt hn.1⟩⟩
    · split
      · rename_i hngt hlt
        exact ⟨⟨fun h => absurd h (by decide), fun h => absurd h hngt⟩,
          ⟨fun _ => ⟨hngt, hlt⟩, fun _ => rfl⟩,
          ⟨fun h => absurd h (by decide), fun hn => absurd hlt hn.2⟩⟩
      · rename_i hngt hnlt
        exact ⟨⟨fun h => absurd h (by decide), fun h => absurd h hngt⟩,
          ⟨fun h => absurd h (by decide), fun h => absurd h.2 hnlt⟩,
          ⟨fun _ => ⟨hngt, hnlt⟩, fun _ => rfl⟩⟩
  · intro l hl
    match l, hl with
    | [], _ => rfl
    | [_], _ => rfl

/-- Witness for C7 on the spec's examples: first=100, last=115 gives
"increasing"; first=100, last=85 gives "decreasing"; first=100, last=95
gives "stable"; and the singleton series gives "stable". -/
theorem calculateTrend_amended_witness :
    calculateTrend [⟨0, 100⟩, ⟨1, 115⟩] = "increasing" ∧
    calculateTrend [⟨0, 100⟩, ⟨1, 85⟩] = "decreasing" ∧
    calculateTrend [⟨0, 100⟩, ⟨1, 95⟩] = "stable" ∧
    calculateTrend [⟨0, 100⟩] = "stable" :=
  ⟨(calculateTrend_amended.1 ⟨0, 100⟩ ⟨1, 115⟩ []).1.mpr (by norm_num [List.getLast]),
   (calculateTrend_amended.1 ⟨0, 100⟩ ⟨1, 85⟩ []).2.1.mpr
     (by constructor <;> norm_num [List.getLast]),
   (calculateTrend_amended.1 ⟨0, 100⟩ ⟨1, 95⟩ []).2.2.mpr
     (by constructor <;> norm_num [List.getLast]),
   calculateTrend_amended.2 [⟨0, 100⟩] (by decide)⟩

/-! ## pkg/metrics: duration parsing (`parseDuration`)

`parseDuration` matches the duration string against the regular
expression `(\d+)([hdm])` anchored at both ends, converts the digits with
`strconv.Atoi` (which fails for values beyond the signed 64-bit range),
and computes `now.Add(-value * unit)` where the multiplication is Go
`time.Duration` (int64) arithmetic and therefore wraps on overflow.
Times are Unix nanoseconds (`Int`). -/

/-- Largest signed 64-bit integer (Go `int` / `time.Duration` bound). -/
def int64Max : Int := 9223372036854775807

/-- `2^63`, the two's-complement wrap point. -/
def twoPow63 : Int := 9223372036854775808

/-- Reduce an unbounded integer to the signed 64-bit value Go arithmetic
produces for it (two's-complement wraparound). -/
def wrap64 (z : Int) : Int := (z + twoPow63) % (2 * twoPow63) - twoPow63

/-- Decimal value of a digit string (the regex group `\d+`). -/
def digitsToNat (ds : List Char) : Nat :=
  ds.foldl (fun acc c => 10 * acc + (c.toNat - 48)) 0

/-- The anchored regex match `^(\d+)([hdm])$`: at least one ASCII digit
followed by exactly one unit character. Returns the numeric value of the
digit group and the unit character. -/
def parseDurationShape (s : String) : Option (Nat × Char) :=
  match s.data.getLast? with
  | none => none
  | some u =>
    let ds := s.data.dropLast
    if (u == 'h' || u == 'd' || u == 'm') && !ds.isEmpty && ds.all Char.isDigit
    then some (digitsToNat ds, u)
    else none

/-- Ideal (unbounded) nanosecond size of one duration unit. -/
def unitNanos : Char → Int
  | 'h' => 3600000000000
  | 'd' => 86400000000000
  | 'm' => 60000000000
  | _ => 0

/-- `parseDuration` from `pkg/metrics/prometheus.go` (lines 513-540): on a
regex match, `strconv.Atoi` the digits (error beyond the int64 range),
then return `now + offset` where the offset is computed exactly as Go
does: `-time.Duration(value) * time.Hour`,
`-time.Duration(value) * 24 * time.Hour`, or
`-time.Duration(value) * time.Minute`, each multiplication wrapping at 64
bits. -/
def parseDuration (s : String) (now : Int) : Option Int :=
  match parseDurationShape s with
  | none => none
  | some (v, u) =>
    if (v : Int) > int64Max then none
    else
      match u with
      | 'h' => some (now + wrap64 ((-(v : Int)) * 3600000000000))
      | 'd' => some (now + wrap64 (wrap64 ((-(v : Int)) * 24) * 3600000000000))
      | 'm' => some (now + wrap64 ((-(v : Int)) * 60000000000))
      | _ => none

lemma wrap64_eq_self {z : Int} (h1 : -twoPow63 ≤ z) (h2 : z < twoPow63) : wrap64 z = z := by
  unfold wrap64
  have h0 : (0 : Int) ≤ z + twoPow63 := by linarith
  have h3 : z + twoPow63 < 2 * twoPow63 := by linarith
  rw [Int.emod_eq_of_lt h0 h3]
  ring

/-! ## Claim C4: duration parsing -/

/-- C4 counterexample: `"3000000h"` is of the form `<integer><unit>` with
unit `h`, so the claim requires the start time `now - 3000000 hours`.
But `-3000000 * time.Hour` overflows int64 and wraps to the positive
duration `7646744073709551616ns`, so the code returns a start time about
242 years in the *future* instead. -/
theorem parseDuration_counterexample :
    parseDuration "3000000h" 0 = some 7646744073709551616 ∧
    (7646744073709551616 : Int) ≠ 0 - 3000000 * 3600000000000 := by
  constructor
  · rfl
  · decide

/-- C4 amended: a string of the form `<integer><unit>` with unit in
{h, d, m} parses to `now` minus that many hours, 24-hour days, or minutes
*provided* the resulting offset in nanoseconds fits in a signed 64-bit
duration (otherwise Go's duration arithmetic wraps, or `Atoi` fails for
integers beyond int64); and every string not of that shape yields the
invalid-duration error (`none`). -/
theorem parseDuration_amended :
    (∀ (ds : List Char) (u : Char) (now : Int),
      ds ≠ [] → ds.all Char.isDigit = true → (u = 'h' ∨ u = 'd' ∨ u = 'm') →
      (digitsToNat ds : Int) * unitNanos u ≤ twoPow63 →
      parseDuration (String.mk (ds ++ [u])) now
        = some (now - (digitsToNat ds : Int) * unitNanos u)) ∧
    (∀ (s : String) (now : Int),
      (¬ ∃ (ds : List Char) (u : Char), s.data = ds ++ [u] ∧ ds ≠ [] ∧
          ds.all Char.isDigit = true ∧ (u = 'h' ∨ u = 'd' ∨ u = 'm')) →
      parseDuration s now = none) := by
  constructor
  · intro ds u now hne hdig hu hfit
    have hv0 : (0 : Int) ≤ (digitsToNat ds : Int) := Int.natCast_nonneg _
    have hunit : (2 : Int) ≤ unitNanos u := by
      rcases hu with h | h | h <;> (subst h; simp [unitNanos])
    have hvmax : ¬ ((digitsToNat ds : Int) > int64Max) := by
      intro hgt
      have h1 : twoPow63 ≤ (digitsToNat ds : Int) := by
        unfold int64Max at hgt; unfold twoPow63; omega
      have h2 : twoPow63 * 2 ≤ (digitsToNat ds : Int) * unitNanos u := by
        calc twoPow63 * 2 ≤ (digitsToNat ds : Int) * 2 := by
              exact mul_le_mul_of_nonneg_right h1 (by norm_num)
          _ ≤ (digitsToNat ds : Int) * unitNanos u := by
              exact mul_le_mul_of_nonneg_left hunit hv0
      have : twoPow63 * 2 ≤ twoPow63 := le_trans h2 hfit
      unfold twoPow63 at this
      omega
    have hshape : parseDurationShape (String.mk (ds ++ [u])) = some (digitsToNat ds, u) := by
      unfold parseDurationShape
      have hlast : (ds ++ [u]).getLast? = some u := by
        simp [List.getLast?_append]
      have hdrop : (ds ++ [u]).dropLast = ds := by
        simp
      simp only [hlast, hdrop]
      have hemp : ds.isEmpty = false := by
        cases ds with
        | nil => exact absurd rfl hne
        | cons a t => rfl
      have hcond : ((u == 'h' || u == 'd' || u == 'm') && !ds.isEmpty && ds.all Char.isDigit) = true := by
        rcases hu with h | h | h <;> (subst h; simp [hdig, hemp])
      rw [hcond]
      simp
    unfold parseDuration
    rw [hshape]
    simp only [hvmax, if_false]
    have hbound : -twoPow63 ≤ -((digitsToNat ds : Int)) * unitNanos u := by
      have := hfit
      nlinarith
    rcases hu with h | h | h <;> subst h
    · have hw : wrap64 ((-(digitsToNat ds : Int)) * 3600000000000)
          = -((digitsToNat ds : Int) * 3600000000000) := by
        have heq : (-(digitsToNat ds : Int)) * 3600000000000
            = -((digitsToNat ds : Int) * 3600000000000) := by ring
        rw [heq]
        apply wrap64_eq_self
        · simp only [unitNanos] at hfit
          nlinarith
        · have : (0 : Int) ≤ (digitsToNat ds : Int) * 3600000000000 := by positivity
          unfold twoPow63
          nlinarith
      rw [hw]
      simp only [unitNanos]
      ring_nf
    · have h24 : wrap64 ((-(digitsToNat ds : Int)) * 24) = (-(digitsToNat ds : Int)) * 24 := by
        apply wrap64_eq_self
        · simp only [unitNanos] at hfit
          nlinarith
        · have : (0 : Int) ≤ (digitsToNat ds : Int) * 24 := by positivity
          unfold twoPow63
          nlinarith
      rw [h24]
      have hw : wrap64 ((-(digitsToNat ds : Int)) * 24 * 3600000000000)
          = -((digitsToNat ds : Int) * 86400000000000) := by
        have heq : (-(digitsToNat ds : Int)) * 24 * 3600000000000
            = -((digitsToNat ds : Int) * 86400000000000) := by ring
        rw [heq]
        apply wrap64_eq_self
        · simp only [unitNanos] at hfit
          nlinarith
        · have : (0 : Int) ≤ (digitsToNat ds : Int) * 86400000000000 := by positivity
          unfold twoPow63
          nlinarith
      rw [hw]
      simp only [unitNanos]
      ring_nf
    · have hw : wrap64 ((-(digitsToNat ds : Int)) * 60000000000)
          = -((digitsToNat ds : Int) * 60000000000) := by
        have heq : (-(digitsToNat ds : Int)) * 60000000000
            = -((digitsToNat ds : Int) * 60000000000) := by ring
        rw [heq]
        apply wrap64_eq_self
        · simp only [unitNanos] at hfit
          nlinarith
        · have : (0 : Int) ≤ (digitsToNat ds : Int) * 60000000000 := by positivity
          unfold twoPow63
          nlinarith
      rw [hw]
      simp only [unitNanos]
      ring_nf
  · intro s now hno
    unfold parseDuration
    cases hsh : parseDurationShape s with
    | none => rfl
    | some p =>
      exfalso
      apply hno
      unfold parseDurationShape at hsh
      cases hlast : s.data.getLast? with
      | none => rw [hlast] at hsh; exact Option.noConfusion hsh
      | some u =>
        rw [hlast] at hsh
        simp only at hsh
        by_cases hcond : ((u == 'h' || u == 'd' || u == 'm') && !(s.data.dropLast).isEmpty
            && (s.data.dropLast).all Char.isDigit) = true
        · have hne : s.data ≠ [] := by
            intro h0
            rw [h0] at hlast
            exact Option.noConfusion hlast
          refine ⟨s.data.dropLast, u, ?_, ?_, ?_, ?_⟩
          · have := List.dropLast_append_getLast hne
            rw [List.getLast?_eq_getLast s.data hne] at hlast
            have hu : s.data.getLast hne = u := Option.some.inj hlast
            rw [← hu]
            exact this.symm
          · have h1 := hcond
            simp only [Bool.and_eq_true, Bool.not_eq_true'] at h1
            intro h0
            rw [h0] at h1
            simp at h1
          · have h1 := hcond
            simp only [Bool.and_eq_true] at h1
            exact h1.2
          · have h1 := hcond
            simp only [Bool.and_eq_true, Bool.or_eq_true, beq_iff_eq] at h1
            rcases h1.1.1 with h | h
            · rcases h with h | h
              · exact Or.inl h
              · exact Or.inr (Or.inl h)
            · exact Or.inr (Or.inr h)
        · rw [if_neg hcond] at hsh
          exact Option.noConfusion hsh

/-- Witness for C4: `"6h"` parses to `now - 6 hours` (at `now = 0`), and
`"5x"` is rejected. -/
theorem parseDuration_amended_witness :
    parseDuration (String.mk (['6'] ++ ['h'])) 0 = some (0 - (6 : Int) * 3600000000000) ∧
    parseDuration "5x" 0 = none := by
  constructor
  · have h := parseDuration_amended.1 ['6'] 'h' 0 (by decide) (by decide) (Or.inl rfl) (by decide)
    simpa [digitsToNat, unitNanos] using h
  · apply parseDuration_amended.2 "5x" 0
    rintro ⟨ds, u, hsplit, hne, hdig, hu⟩
    have hdata : ("5x".data : List Char) = ['5', 'x'] := rfl
    rw [hdata] at hsplit
    have hu' : u = 'x' := by
      have := congrArg List.getLast? hsplit
      simp [List.getLast?_append] at this
      exact this.symm
    subst hu'
    rcases hu with h | h | h <;> exact Char.noConfusion h (by intro he; exact absurd he (by decide))

/-! ## pkg/metrics: the standard query catalog and per-resource collection -/

/-- `PrometheusQuery` from `pkg/metrics/types.go` (description field
omitted; it is never read by the collector). -/
structure PrometheusQuery where
  name : String
  query : String
  unit : String
deriving DecidableEq

/-- `CPUUtilizationQuery` from `pkg/metrics/types.go`. -/
def CPUUtilizationQuery : PrometheusQuery :=
  ⟨"cpu_utilization",
   "avg(rate(container_cpu_usage_seconds_total\x7bpod=~\"RESOURCE_NAME.*\", namespace=\"NAMESPACE\", container!=\"\", container!=\"POD\"\x7d[5m])) * 100",
   "percent"⟩

/-- `CPURequestsQuery` from `pkg/metrics/types.go`. -/
def CPURequestsQuery : PrometheusQuery :=
  ⟨"cpu_requests",
   "avg(kube_pod_container_resource_requests\x7bpod=~\"RESOURCE_NAME.*\", namespace=\"NAMESPACE\", resource=\"cpu\"\x7d)",
   "cores"⟩

/-- `CPULimitsQuery` from `pkg/metrics/types.go`. -/
def CPULimitsQuery : PrometheusQuery :=
  ⟨"cpu_limits",
   "avg(kube_pod_container_resource_limits\x7bpod=~\"RESOURCE_NAME.*\", namespace=\"NAMESPACE\", resource=\"cpu\"\x7d)",
   "cores"⟩

/-- `MemoryUtilizationQuery` from `pkg/metrics/types.go`. -/
def MemoryUtilizationQuery : PrometheusQuery :=
  ⟨"memory_utilization",
   "avg(container_memory_usage_bytes\x7bpod=~\"RESOURCE_NAME.*\", namespace=\"NAMESPACE\", container!=\"\", container!=\"POD\"\x7d) / 1024 / 1024",
   "MB"⟩

/-- `MemoryRequestsQuery` from `pkg/metrics/types.go`. -/
def MemoryRequestsQuery : PrometheusQuery :=
  ⟨"memory_requests",
   "avg(kube_pod_container_resource_requests\x7bpod=~\"RESOURCE_NAME.*\", namespace=\"NAMESPACE\", resource=\"memory\"\x7d) / 1024 / 1024",
   "MB"⟩

/-- `MemoryLimitsQuery` from `pkg/metrics/types.go`. -/
def MemoryLimitsQuery : PrometheusQuery :=
  ⟨"memory_limits",
   "avg(kube_pod_container_resource_limits\x7bpod=~\"RESOURCE_NAME.*\", namespace=\"NAMESPACE\", resource=\"memory\"\x7d) / 1024 / 1024",
   "MB"⟩

/-- `PodReplicasQuery` from `pkg/metrics/types.go`. -/
def PodReplicasQuery : PrometheusQuery :=
  ⟨"pod_replicas",
   "kube_deployment_status_replicas\x7bdeployment=\"RESOURCE_NAME\", namespace=\"NAMESPACE\"\x7d",
   "count"⟩

/-- `PodAvailableQuery` from `pkg/metrics/types.go`. -/
def PodAvailableQuery : PrometheusQuery :=
  ⟨"pod_available",
   "kube_deployment_status_replicas_available\x7bdeployment=\"RESOURCE_NAME\", namespace=\"NAMESPACE\"\x7d",
   "count"⟩

/-- `GetStandardQueries` from `pkg/metrics/types.go`. -/
def GetStandardQueries : List PrometheusQuery :=
  [CPUUtilizationQuery, CPURequestsQuery, CPULimitsQuery,
   MemoryUtilizationQuery, MemoryRequestsQuery, MemoryLimitsQuery,
   PodReplicasQuery, PodAvailableQuery]

/-- `MetricValue` from `pkg/metrics/types.go` (labels omitted; always set
to an empty map by the collector). -/
structure MetricValue where
  name : String
  unit : String
  values : List TimestampedValue
  average : ℚ
  peak : ℚ
  minimum : ℚ
  current : ℚ
deriving DecidableEq

/-- The two `strings.ReplaceAll` substitutions performed on each query
template in `collectResourceMetrics`. -/
def substituteQuery (template resourceName nsName : String) : String :=
  (template.replace "RESOURCE_NAME" resourceName).replace "NAMESPACE" nsName

/-- Broader fallback CPU query hard-coded in `collectResourceMetrics`. -/
def cpuAltTemplate : String :=
  "avg(rate(container_cpu_usage_seconds_total\x7bpod=~\"RESOURCE_NAME.*\", namespace=\"NAMESPACE\"\x7d[1m])) * 100"

/-- Broader fallback memory query hard-coded in `collectResourceMetrics`. -/
def memAltTemplate : String :=
  "avg(container_memory_usage_bytes\x7bpod=~\"RESOURCE_NAME.*\", namespace=\"NAMESPACE\"\x7d) / 1024 / 1024"

/-- One iteration of the query loop of `collectResourceMetrics`
(`pkg/metrics/prometheus.go` lines 383-436), with the Prometheus range
query passed in as an oracle `queryRange : query → start → end →
samples-or-error`.  A failed query or an empty result skips the metric;
a sparse (1-9 samples) CPU/memory utilization result triggers the broader
fallback query over the last 24 hours, kept only when it yields strictly
more samples. -/
def collectOneMetric (queryRange : String → Int → Int → Option (List TimestampedValue))
    (resourceName nsName : String) (startTime endTime : Int)
    (q : PrometheusQuery) : Option MetricValue :=
  let finalQuery := substituteQuery q.query resourceName nsName
  match queryRange finalQuery startTime endTime with
  | none => none
  | some values0 =>
    if values0.length = 0 then none
    else
      let values :=
        if values0.length < 10 ∧ (q.name = "cpu_utilization" ∨ q.name = "memory_utilization") then
          let alternativeQuery :=
            if q.name = "cpu_utilization" then cpuAltTemplate
            else if q.name = "memory_utilization" then memAltTemplate
            else ""
          if alternativeQuery ≠ "" then
            let altQuery := substituteQuery alternativeQuery resourceName nsName
            let altStartTime := endTime - 24 * 3600000000000
            match queryRange altQuery altStartTime endTime with
            | some altValues => if altValues.length > values0.length then altValues else values0
            | none => values0
          else values0
        else values0
      let s := calculateStats values
      some ⟨q.name, q.unit, values, s.1, s.2.1, s.2.2.1, s.2.2.2⟩

/-- `collectResourceMetrics` (`pkg/metrics/prometheus.go` lines 370-439):
end time is `now`, start time comes from `parseDuration` (whose failure
fails the call); each standard query contributes an entry under its name
when `collectOneMetric` produces one. -/
def collectResourceMetrics (queryRange : String → Int → Int → Option (List TimestampedValue))
    (resourceName nsName durationStr : String) (now : Int) :
    Option (List (String × MetricValue)) :=
  match parseDuration durationStr now with
  | none => none
  | some startTime =>
    some (GetStandardQueries.filterMap (fun q =>
      (collectOneMetric queryRange resourceName nsName startTime now q).map
        (fun mv => (q.name, mv))))

/-- Lookup in a Go map modelled as an association list (first match). -/
def mapLookup {α : Type} (k : String) : List (String × α) → Option α
  | [] => none
  | (k', v) :: rest => if k' = k then some v else mapLookup k rest

/-! ## Claim C3: sparse-data fallback for CPU/memory utilization -/

/-- Oracle for the C3 counterexample: the original range query (whose
start time is `now - 1h = -3600000000000`) returns zero samples, while
the 24-hour fallback window would return 20 samples. -/
def zeroSampleOracle : String → Int → Int → Option (List TimestampedValue) :=
  fun _ s _ =>
    if s = -3600000000000 then some []
    else some ((List.range 20).map (fun i => ⟨(i : Int), 1⟩))

/-- C3 counterexample: a CPU-utilization range query returning zero
samples returns *fewer than 10* samples, so the claim requires the
fallback retry (which here would yield 20 samples) and a stored list with
those 20 samples.  The code instead skips the metric entirely: the
`len(values) == 0` continue fires before the sparse-data check, no
fallback query is issued, and the result map has no `cpu_utilization`
entry at all. -/
theorem sparseRetry_counterexample :
    collectResourceMetrics zeroSampleOracle "web" "default" "1h" 0 = some [] ∧
    zeroSampleOracle (substituteQuery CPUUtilizationQuery.query "web" "default")
      (-3600000000000) 0 = some [] ∧
    (zeroSampleOracle (substituteQuery cpuAltTemplate "web" "default")
      (0 - 24 * 3600000000000) 0).map List.length = some 20 ∧
    mapLookup "cpu_utilization" ([] : List (String × MetricValue)) = none := by
  exact ⟨rfl, rfl, rfl, rfl⟩

lemma mapLookup_filterMap_skip (f : PrometheusQuery → Option (String × MetricValue))
    (hf : ∀ q p, f q = some p → p.1 = q.name) (k : String) :
    ∀ (qs : List PrometheusQuery), (∀ q ∈ qs, q.name ≠ k) →
      ∀ (rest : List (String × MetricValue)),
        mapLookup k (qs.filterMap f ++ rest) = mapLookup k rest := by
  intro qs
  induction qs with
  | nil => intro _ rest; simp [List.filterMap_nil]
  | cons q t ih =>
    intro h rest
    simp only [List.filterMap_cons]
    cases hfq : f q with
    | none => exact ih (fun q' hq' => h q' (List.mem_cons_of_mem _ hq')) rest
    | some p =>
      simp only [List.cons_append, mapLookup]
      rw [if_neg]
      · exact ih (fun q' hq' => h q' (List.mem_cons_of_mem _ hq')) rest
      · rw [hf q p hfq]
        exact h q (List.mem_cons_self q t)

lemma collectOne_utilization
    (queryRange : String → Int → Int → Option (List TimestampedValue))
    (resourceName nsName : String) (startTime endTime : Int)
    (q : PrometheusQuery) (altT : String)
    (hname : (q.name = "cpu_utilization" ∧ altT = cpuAltTemplate) ∨
             (q.name = "memory_utilization" ∧ altT = memAltTemplate))
    (values : List TimestampedValue)
    (hvals : queryRange (substituteQuery q.query resourceName nsName) startTime endTime
      = some values)
    (hne : values.length ≠ 0) (hlen : values.length < 10) :
    ∃ mv, collectOneMetric queryRange resourceName nsName startTime endTime q = some mv ∧
      mv.values = (match queryRange (substituteQuery altT resourceName nsName)
                      (endTime - 24 * 3600000000000) endTime with
                   | some altValues =>
                       if altValues.length > values.length then altValues else values
                   | none => values) := by
  unfold collectOneMetric
  simp only [hvals]
  rw [if_neg hne]
  rcases hname with ⟨hn, ha⟩ | ⟨hn, ha⟩
  · rw [hn, ha]
    rw [if_pos ⟨hlen, Or.inl rfl⟩]
    rw [if_pos rfl]
    rw [if_pos (by decide : cpuAltTemplate ≠ "")]
    cases halt : queryRange (substituteQuery cpuAltTemplate resourceName nsName)
        (endTime - 24 * 3600000000000) endTime with
    | none => exact ⟨_, rfl, rfl⟩
    | some altValues => exact ⟨_, rfl, rfl⟩
  · rw [hn, ha]
    rw [if_pos ⟨hlen, Or.inr rfl⟩]
    rw [if_neg (by decide : ¬ ("memory_utilization" = "cpu_utilization"))]
    rw [if_pos rfl]
    rw [if_pos (by decide : memAltTemplate ≠ "")]
    cases halt : queryRange (substituteQuery memAltTemplate resourceName nsName)
        (endTime - 24 * 3600000000000) endTime with
    | none => exact ⟨_, rfl, rfl⟩
    | some altValues => exact ⟨_, rfl, rfl⟩

/-- C3 amended: for every CPU- or memory-utilization query whose range
query returns *at least one but* fewer than 10 samples, the collector
retries with the broader pod-name-prefix query over a fixed 24-hour
lookback ending at now, and the metric stored under the query name keeps
the alternative result exactly when the alternative query succeeds with
strictly more samples, and the original result otherwise.  (A query
returning zero samples is skipped entirely — no retry, no entry.) -/
theorem sparseRetry_amended
    (queryRange : String → Int → Int → Option (List TimestampedValue))
    (resourceName nsName durationStr : String) (now startTime : Int)
    (q : PrometheusQuery) (altT : String)
    (hq : (q = CPUUtilizationQuery ∧ altT = cpuAltTemplate) ∨
          (q = MemoryUtilizationQuery ∧ altT = memAltTemplate))
    (values : List TimestampedValue)
    (hdur : parseDuration durationStr now = some startTime)
    (hvals : queryRange (substituteQuery q.query resourceName nsName) startTime now
      = some values)
    (hne : values ≠ []) (hlen : values.length < 10) :
    ∃ m, collectResourceMetrics queryRange resourceName nsName durationStr now = some m ∧
      ∃ mv, mapLookup q.name m = some mv ∧
        mv.values = (match queryRange (substituteQuery altT resourceName nsName)
                        (now - 24 * 3600000000000) now with
                     | some altValues =>
                         if altValues.length > values.length then altValues else values
                     | none => values) := by
  have hne0 : values.length ≠ 0 := fun h => hne (List.length_eq_zero.mp h)
  have hf : ∀ q' p, ((collectOneMetric queryRange resourceName nsName startTime now q').map
      (fun mv => (q'.name, mv))) = some p → p.1 = q'.name := by
    intro q' p h
    cases hc : collectOneMetric queryRange resourceName nsName startTime now q' with
    | none => rw [hc] at h; exact Option.noConfusion h
    | some mv =>
      rw [hc] at h
      simp only [Option.map_some'] at h
      rw [← Option.some.inj h]
  unfold collectResourceMetrics
  rw [hdur]
  refine ⟨_, rfl, ?_⟩
  rcases hq with ⟨hq, ha⟩ | ⟨hq, ha⟩
  · subst hq; subst ha
    obtain ⟨mv, hone, hv⟩ := collectOne_utilization queryRange resourceName nsName startTime now
      CPUUtilizationQuery cpuAltTemplate (Or.inl ⟨rfl, rfl⟩) values hvals hne0 hlen
    refine ⟨mv, ?_, hv⟩
    simp only [GetStandardQueries, List.filterMap_cons, hone, Option.map_some']
    simp [mapLookup]
  · subst hq; subst ha
    obtain ⟨mv, hone, hv⟩ := collectOne_utilization queryRange resourceName nsName startTime now
      MemoryUtilizationQuery memAltTemplate (Or.inr ⟨rfl, rfl⟩) values hvals hne0 hlen
    refine ⟨mv, ?_, hv⟩
    have hsplit : GetStandardQueries
        = [CPUUtilizationQuery, CPURequestsQuery, CPULimitsQuery]
          ++ (MemoryUtilizationQuery
              :: [MemoryRequestsQuery, MemoryLimitsQuery, PodReplicasQuery, PodAvailableQuery]) := rfl
    rw [hsplit, List.filterMap_append]
    rw [mapLookup_filterMap_skip _ hf MemoryUtilizationQuery.name
      [CPUUtilizationQuery, CPURequestsQuery, CPULimitsQuery] (by decide) _]
    simp only [List.filterMap_cons, hone, Option.map_some']
    simp [mapLookup]

/-- Oracle for the C3 witness: the original CPU query (start time
`now - 1h`) yields 5 samples; the 24-hour fallback yields 12. -/
def sparseOracle : String → Int → Int → Option (List TimestampedValue) :=
  fun _ s _ =>
    if s = -3600000000000 then some ((List.range 5).map (fun i => ⟨(i : Int), 1⟩))
    else some ((List.range 12).map (fun i => ⟨(i : Int), 2⟩))

/-- Witness for C3: with 5 original samples and a 12-sample fallback, the
stored `cpu_utilization` series is the 12-sample fallback result. -/
theorem sparseRetry_amended_witness :
    ∃ m, collectResourceMetrics sparseOracle "web" "default" "1h" 0 = some m ∧
      ∃ mv, mapLookup "cpu_utilization" m = some mv ∧
        mv.values = (List.range 12).map (fun i => ⟨(i : Int), 2⟩) := by
  obtain ⟨m, hm, mv, hmv, hv⟩ := sparseRetry_amended sparseOracle "web" "default" "1h" 0
    (-3600000000000) CPUUtilizationQuery cpuAltTemplate (Or.inl ⟨rfl, rfl⟩)
    ((List.range 5).map (fun i => ⟨(i : Int), 1⟩)) (by rfl) (by rfl) (by decide) (by decide)
  refine ⟨m, hm, mv, hmv, ?_⟩
  rw [hv]
  rfl


/-! ## Claim C10: GatherMetrics analyzes only Deployments -/

/-- A resource handed to `GatherMetrics`, abstracted to the outcome of
`extractResourceInfoFromK8sObject` (the reflection-based metadata
extraction): `some (name, resourceType, namespace)` on success, `none`
when the object exposes no usable metadata (e.g. a List). -/
structure RawResource where
  extracted : Option (String × String × String)

/-- `extractResourceInfoFromK8sObject` (`pkg/metrics/prometheus.go` lines
298-307), as the outcome recorded in `RawResource`. -/
def extractResourceInfoFromK8sObject (r : RawResource) : Option (String × String × String) :=
  r.extracted

/-- `MetricsData` from `pkg/metrics/types.go`. -/
structure MetricsData where
  resourceName : String
  resourceType : String
  nsName : String
  metrics : List (String × MetricValue)
  duration : String
  timestamp : Int
deriving DecidableEq

/-- `GatherMetrics` (`pkg/metrics/prometheus.go` lines 262-295): for each
resource, extract metadata (skip on failure), skip every type other than
`"Deployment"`, collect metrics (any collection error fails the whole
call), and store under the key `"<namespace>/<name>"`. -/
def GatherMetrics (queryRange : String → Int → Int → Option (List TimestampedValue))
    (resources : List RawResource) (durationStr : String) (now : Int) :
    Option (List (String × MetricsData)) :=
  match resources with
  | [] => some []
  | r :: rest =>
    match extractResourceInfoFromK8sObject r with
    | none => GatherMetrics queryRange rest durationStr now
    | some (resourceName, resourceType, nsName) =>
      if resourceType ≠ "Deployment" then GatherMetrics queryRange rest durationStr now
      else
        match collectResourceMetrics queryRange resourceName nsName durationStr now with
        | none => none
        | some metrics =>
          (GatherMetrics queryRange rest durationStr now).map
            (fun m => (nsName ++ "/" ++ resourceName,
              MetricsData.mk resourceName resourceType nsName metrics durationStr now) :: m)

/-- C10: every entry of a successful `GatherMetrics` result comes from an
input resource whose extracted type is exactly `"Deployment"`; resources
of any other type, and objects whose metadata cannot be extracted,
contribute no entry. -/
theorem gatherMetrics_deploymentsOnly
    (queryRange : String → Int → Int → Option (List TimestampedValue))
    (resources : List RawResource) (durationStr : String) (now : Int)
    (m : List (String × MetricsData))
    (h : GatherMetrics queryRange resources durationStr now = some m) :
    ∀ p ∈ m, p.2.resourceType = "Deployment" ∧
      ∃ r ∈ resources, r.extracted = some (p.2.resourceName, "Deployment", p.2.nsName) := by
  induction resources generalizing m with
  | nil =>
    intro p hp
    unfold GatherMetrics at h
    rw [← Option.some.inj h] at hp
    exact absurd hp (List.not_mem_nil p)
  | cons r rest ih =>
    intro p hp
    unfold GatherMetrics at h
    split at h
    · obtain ⟨hty, r', hr', he⟩ := ih m h p hp
      exact ⟨hty, r', List.mem_cons_of_mem _ hr', he⟩
    · rename_i n t nsn heq
      split at h
      · obtain ⟨hty, r', hr', he⟩ := ih m h p hp
        exact ⟨hty, r', List.mem_cons_of_mem _ hr', he⟩
      · rename_i ht
        have ht' : t = "Deployment" := not_not.mp ht
        split at h
        · exact Option.noConfusion h
        · rename_i metrics hc
          cases hrest : GatherMetrics queryRange rest durationStr now with
          | none => rw [hrest] at h; exact Option.noConfusion h
          | some m' =>
            rw [hrest] at h
            simp only [Option.map_some'] at h
            rw [← Option.some.inj h] at hp
            rcases List.mem_cons.mp hp with hp | hp
            · subst hp
              refine ⟨ht', r, List.mem_cons_self r rest, ?_⟩
              have heq' : r.extracted = some (n, t, nsn) := heq
              show r.extracted = some (n, "Deployment", nsn)
              rw [heq', ht']
            · obtain ⟨hty, r', hr', he⟩ := ih m' hrest p hp
              exact ⟨hty, r', List.mem_cons_of_mem _ hr', he⟩

/-- Input list for the C10 witness: one Deployment, one StatefulSet, one
unextractable object. -/
def metricsResourcesExample : List RawResource :=
  [⟨some ("web", "Deployment", "default")⟩, ⟨some ("db", "StatefulSet", "default")⟩, ⟨none⟩]

/-- Witness for C10: on the example input only the Deployment produces an
entry, and the claim theorem applies to it. -/
theorem gatherMetrics_deploymentsOnly_witness :
    GatherMetrics (fun _ _ _ => none) metricsResourcesExample "1h" 0
      = some [("default/web", MetricsData.mk "web" "Deployment" "default" [] "1h" 0)] ∧
    (MetricsData.mk "web" "Deployment" "default" [] "1h" 0).resourceType = "Deployment" ∧
    ∃ r ∈ metricsResourcesExample, r.extracted = some ("web", "Deployment", "default") := by
  have hrun : GatherMetrics (fun _ _ _ => none) metricsResourcesExample "1h" 0
      = some [("default/web", MetricsData.mk "web" "Deployment" "default" [] "1h" 0)] := rfl
  have h := gatherMetrics_deploymentsOnly (fun _ _ _ => none) metricsResourcesExample "1h" 0
    [("default/web", MetricsData.mk "web" "Deployment" "default" [] "1h" 0)] hrun
    ("default/web", MetricsData.mk "web" "Deployment" "default" [] "1h" 0)
    (List.mem_singleton.mpr rfl)
  exact ⟨hrun, h.1, h.2⟩


/-! ## pkg/k8s: the Resource Gatherer (`client.go`)

Cluster reads are oracles in a `GatherWorld`: `nativeGet` is the typed
client (one fetcher per built-in kind), `discover`/`dynamicGet` the
discovery + dynamic-client fallback, `podsForWorkload` the
list-pods-by-label-selector call, `events` and the `list*` fields the
namespace-wide list calls.  `none` models a Go error return.  The Go maps
are association lists where a later insert is consed to the front. -/

/-- The nine built-in kinds the typed-client switch of
`gatherNativeResource` handles. -/
inductive NativeKind
  | deployment | pod | service | configmap | secret
  | statefulset | daemonset | ingress | hpa
deriving DecidableEq

/-- A gathered Kubernetes object: its kind, the secret data payload (only
meaningful for Secrets; `none` = empty/absent) and whether it exposes
`spec.selector` (the `hasSelector` test on unstructured objects). -/
structure K8sObject where
  kind : String
  secretData : Option (List (String × String))
  hasSelector : Bool
deriving DecidableEq

/-- A value stored in the gather result map: a single object or an object
list (pods, events, or an all-mode collection). -/
inductive GatheredValue
  | obj (o : K8sObject)
  | objList (l : List K8sObject)
deriving DecidableEq

/-- The `map[string]interface\x7b\x7d` result, as an association list;
a later insert is consed to the front and shadows older entries under
first-match lookup. -/
abbrev ResultMap := List (String × GatheredValue)

/-- `result[k] = v`. -/
def mapInsert (m : ResultMap) (k : String) (v : GatheredValue) : ResultMap :=
  (k, v) :: m

/-- The cluster-call oracles threaded through the Gatherer. -/
structure GatherWorld where
  nativeGet : NativeKind → String → String → Option K8sObject
  discover : String → Option Bool
  dynamicGet : String → String → String → Option K8sObject
  podsForWorkload : String → K8sObject → Option (List K8sObject)
  events : Option (List K8sObject)
  listDeployments : Option (List K8sObject)
  listPods : Option (List K8sObject)
  listServices : Option (List K8sObject)
  listConfigmaps : Option (List K8sObject)
  listIngresses : Option (List K8sObject)
  listHPAs : Option (List K8sObject)

/-- `secret.Data = nil`: the redaction performed in the typed-client
secret branch of `gatherNativeResource` (`pkg/k8s/client.go` line 259). -/
def redactSecret (o : K8sObject) : K8sObject := { o with secretData := none }

/-- The alias switch of `gatherNativeResource` (`pkg/k8s/client.go` lines
214-297): which typed client, if any, serves a lower-cased type token;
`none` is the `"not a native resource"` default branch. -/
def nativeKindOf : String → Option NativeKind
  | "deployment" | "deploy" | "deployments" => some .deployment
  | "pod" | "pods" | "po" => some .pod
  | "service" | "services" | "svc" => some .service
  | "configmap" | "configmaps" | "cm" => some .configmap
  | "secret" | "secrets" => some .secret
  | "statefulset" | "statefulsets" | "sts" => some .statefulset
  | "daemonset" | "daemonsets" | "ds" => some .daemonset
  | "ingress" | "ingresses" | "ing" => some .ingress
  | "hpa" | "horizontalpodautoscaler" | "horizontalpodautoscalers" => some .hpa
  | _ => none

/-- Structural model of Go `strings.Split(s, "/")`, splitting on the
slash character (structurally recursive so that concrete worlds
evaluate). -/
def splitCharsOnSlash : List Char → List (List Char)
  | [] => [[]]
  | c :: rest =>
    let r := splitCharsOnSlash rest
    if c = '/' then [] :: r
    else
      match r with
      | [] => [[c]]
      | g :: gs => (c :: g) :: gs

/-- `strings.Split(resource, "/")`. -/
def splitSlash (s : String) : List String :=
  (splitCharsOnSlash s.data).map (fun cs => String.mk cs)

/-- `strings.ToLower`, character-wise. -/
def toLowerStr (s : String) : String := String.mk (s.data.map Char.toLower)

/-- `gatherNativeResource` (`pkg/k8s/client.go` lines 213-298): each
recognised alias issues its typed get (error propagated to the caller),
then stores the object under the full reference; the secret branch stores
the *redacted* object; the deployment branch additionally stores related
pods under `"<ref>_pods"` whenever the pod list call succeeds. -/
def gatherNativeResource (w : GatherWorld) (nsName resourceType resourceName fullResource : String)
    (result : ResultMap) : Option ResultMap :=
  match nativeKindOf resourceType with
  | none => none
  | some k =>
    match w.nativeGet k nsName resourceName with
    | none => none
    | some obj =>
      match k with
      | .secret => some (mapInsert result fullResource (.obj (redactSecret obj)))
      | .deployment =>
        let result1 := mapInsert result fullResource (.obj obj)
        match w.podsForWorkload nsName obj with
        | some pods => some (mapInsert result1 (fullResource ++ "_pods") (.objList pods))
        | none => some result1
      | _ => some (mapInsert result fullResource (.obj obj))

/-- The discovery + dynamic-client fallback inside `gatherResource`
(`pkg/k8s/client.go` lines 181-209): discover the type (error
propagated), fetch via the dynamic client (namespaced or cluster-scoped),
store the object *as is* — note: no secret redaction on this path — and
attach pods when the object has a selector and the pod list call succeeds
with a non-empty list. -/
def gatherDynamicFallback (w : GatherWorld) (nsName resourceType resourceName resource : String)
    (result : ResultMap) : Option ResultMap :=
  match w.discover resourceType with
  | none => none
  | some namespaced =>
    match w.dynamicGet resourceType (if namespaced then nsName else "") resourceName with
    | none => none
    | some obj =>
      let result1 := mapInsert result resource (.obj obj)
      if obj.hasSelector then
        match w.podsForWorkload nsName obj with
        | some pods =>
          if pods.length > 0 then
            some (mapInsert result1 (resource ++ "_pods") (.objList pods))
          else some result1
        | none => some result1
      else some result1

/-- `gatherResource` (`pkg/k8s/client.go` lines 167-210): split the
reference on `/` (exactly two parts or error), lower-case the type, try
the typed client first, then fall back to discovery + dynamic client. -/
def gatherResource (w : GatherWorld) (nsName resource : String) (result : ResultMap) :
    Option ResultMap :=
  match splitSlash resource with
  | [t, n] =>
    match gatherNativeResource w nsName (toLowerStr t) n resource result with
    | some result1 => some result1
    | none => gatherDynamicFallback w nsName (toLowerStr t) n resource result
  | _ => none

/-- The `err == nil && len(items) > 0` guarded insertion used by
`gatherAllResources` and the events step of `GatherResources`. -/
def addIfNonEmpty (m : ResultMap) (k : String) (l : Option (List K8sObject)) : ResultMap :=
  match l with
  | some items => if items.length > 0 then mapInsert m k (.objList items) else m
  | none => m

/-- `gatherAllResources` (`pkg/k8s/client.go` lines 300-338): list each
built-in collection, keep the non-empty ones; its Go error return is
always nil. -/
def gatherAllResources (w : GatherWorld) (result : ResultMap) : ResultMap :=
  let m := addIfNonEmpty result "deployments" w.listDeployments
  let m := addIfNonEmpty m "pods" w.listPods
  let m := addIfNonEmpty m "services" w.listServices
  let m := addIfNonEmpty m "configmaps" w.listConfigmaps
  let m := addIfNonEmpty m "ingresses" w.listIngresses
  addIfNonEmpty m "hpas" w.listHPAs

/-- `GatherResources` (`pkg/k8s/client.go` lines 140-165): in all-mode,
gather every collection; otherwise loop over the references, swallowing
each per-reference error with a printed warning; finally append the
namespace events when there are any. -/
def GatherResources (w : GatherWorld) (nsName : String) (resources : List String)
    (all : Bool) : Option ResultMap :=
  if all then
    some (addIfNonEmpty (gatherAllResources w []) "events" w.events)
  else
    some (addIfNonEmpty
      (resources.foldl (fun m r =>
        match gatherResource w nsName r m with
        | some m1 => m1
        | none => m) [])
      "events" w.events)

/-! ### Structure lemmas for the gather loop -/

lemma gatherNativeResource_append (w : GatherWorld) (nsName t n fr : String) (m : ResultMap) :
    gatherNativeResource w nsName t n fr m
      = (gatherNativeResource w nsName t n fr []).map (· ++ m) := by
  unfold gatherNativeResource
  split
  · rfl
  · split
    · rfl
    · split <;> first | rfl | (split <;> rfl)

lemma gatherDynamicFallback_append (w : GatherWorld) (nsName t n r : String) (m : ResultMap) :
    gatherDynamicFallback w nsName t n r m
      = (gatherDynamicFallback w nsName t n r []).map (· ++ m) := by
  unfold gatherDynamicFallback
  split
  · rfl
  · split
    · rfl
    · split
      · split
        · split <;> rfl
        · rfl
      · rfl

lemma gatherResource_append (w : GatherWorld) (nsName r : String) (m : ResultMap) :
    gatherResource w nsName r m = (gatherResource w nsName r []).map (· ++ m) := by
  unfold gatherResource
  split
  · rename_i t n hsp
    have hn := gatherNativeResource_append w nsName (toLowerStr t) n r m
    cases hng : gatherNativeResource w nsName (toLowerStr t) n r [] with
    | some d =>
      rw [hng] at hn
      simp only [Option.map_some'] at hn
      rw [hn]
      rfl
    | none =>
      rw [hng] at hn
      simp only [Option.map_none'] at hn
      rw [hn]
      exact gatherDynamicFallback_append w nsName (toLowerStr t) n r m
  · rfl

lemma gatherNativeResource_self_mem (w : GatherWorld) (nsName t n fr : String) (d : ResultMap)
    (h : gatherNativeResource w nsName t n fr [] = some d) : ∃ v, (fr, v) ∈ d := by
  unfold gatherNativeResource at h
  split at h
  · exact Option.noConfusion h
  · split at h
    · exact Option.noConfusion h
    · split at h
      · rw [← Option.some.inj h]
        exact ⟨_, List.mem_cons_self _ _⟩
      · split at h
        · rw [← Option.some.inj h]
          exact ⟨_, List.mem_cons_of_mem _ (List.mem_cons_self _ _)⟩
        · rw [← Option.some.inj h]
          exact ⟨_, List.mem_cons_self _ _⟩
      · rw [← Option.some.inj h]
        exact ⟨_, List.mem_cons_self _ _⟩

lemma gatherDynamicFallback_self_mem (w : GatherWorld) (nsName t n r : String) (d : ResultMap)
    (h : gatherDynamicFallback w nsName t n r [] = some d) : ∃ v, (r, v) ∈ d := by
  unfold gatherDynamicFallback at h
  split at h
  · exact Option.noConfusion h
  · split at h
    · exact Option.noConfusion h
    · split at h
      · split at h
        · split at h
          · rw [← Option.some.inj h]
            exact ⟨_, List.mem_cons_of_mem _ (List.mem_cons_self _ _)⟩
          · rw [← Option.some.inj h]
            exact ⟨_, List.mem_cons_self _ _⟩
        · rw [← Option.some.inj h]
          exact ⟨_, List.mem_cons_self _ _⟩
      · rw [← Option.some.inj h]
        exact ⟨_, List.mem_cons_self _ _⟩

lemma gatherResource_self_mem (w : GatherWorld) (nsName r : String) (d : ResultMap)
    (h : gatherResource w nsName r [] = some d) : ∃ v, (r, v) ∈ d := by
  unfold gatherResource at h
  split at h
  · rename_i t n hsp
    split at h
    · rename_i result1 hng
      rw [← Option.some.inj h]
      exact gatherNativeResource_self_mem w nsName (toLowerStr t) n r result1 hng
    · exact gatherDynamicFallback_self_mem w nsName (toLowerStr t) n r d h
  · exact Option.noConfusion h

lemma gatherLoop_mem (w : GatherWorld) (nsName : String) :
    ∀ (refs : List String) (m : ResultMap),
      (∀ k v, (k, v) ∈ m → ∃ v1, (k, v1) ∈ refs.foldl (fun m0 r =>
          match gatherResource w nsName r m0 with
          | some m1 => m1
          | none => m0) m) ∧
      (∀ r ∈ refs, (gatherResource w nsName r []).isSome →
        ∃ v, (r, v) ∈ refs.foldl (fun m0 r0 =>
          match gatherResource w nsName r0 m0 with
          | some m1 => m1
          | none => m0) m) := by
  intro refs
  induction refs with
  | nil =>
    intro m
    exact ⟨fun k v h => ⟨v, h⟩, fun r hr => absurd hr (List.not_mem_nil r)⟩
  | cons r t ih =>
    intro m
    have hstep : ∀ m0 : ResultMap,
        (match gatherResource w nsName r m0 with
         | some m1 => m1
         | none => m0) = m0 ∨
        ∃ d, gatherResource w nsName r [] = some d ∧
          (match gatherResource w nsName r m0 with
           | some m1 => m1
           | none => m0) = d ++ m0 := by
      intro m0
      have ha := gatherResource_append w nsName r m0
      cases hg : gatherResource w nsName r [] with
      | none =>
        rw [hg] at ha
        simp only [Option.map_none'] at ha
        rw [ha]
        exact Or.inl rfl
      | some d =>
        rw [hg] at ha
        simp only [Option.map_some'] at ha
        rw [ha]
        exact Or.inr ⟨d, rfl, rfl⟩
    constructor
    · intro k v hkv
      simp only [List.foldl_cons]
      rcases hstep m with hs | ⟨d, _, hs⟩
      · rw [hs]
        exact (ih m).1 k v hkv
      · rw [hs]
        exact (ih (d ++ m)).1 k v (List.mem_append_right d hkv)
    · intro r1 hr1 hsome
      simp only [List.foldl_cons]
      rcases List.mem_cons.mp hr1 with hr1 | hr1
      · subst hr1
        cases hg : gatherResource w nsName r1 [] with
        | none =>
          rw [hg] at hsome
          simp at hsome
        | some d =>
          have ha := gatherResource_append w nsName r1 m
          rw [hg] at ha
          simp only [Option.map_some'] at ha
          rw [ha]
          obtain ⟨v, hv⟩ := gatherResource_self_mem w nsName r1 d hg
          exact (ih (d ++ m)).1 r1 v (List.mem_append_left m hv)
      · rcases hstep m with hs | ⟨d, _, hs⟩
        · rw [hs]
          exact (ih m).2 r1 hr1 hsome
        · rw [hs]
          exact (ih (d ++ m)).2 r1 hr1 hsome

lemma addIfNonEmpty_mem (m : ResultMap) (k1 : String) (l : Option (List K8sObject))
    (k : String) (v : GatheredValue) (h : (k, v) ∈ m) :
    ∃ v1, (k, v1) ∈ addIfNonEmpty m k1 l := by
  unfold addIfNonEmpty
  split
  · split
    · exact ⟨v, List.mem_cons_of_mem _ h⟩
    · exact ⟨v, h⟩
  · exact ⟨v, h⟩

/-! ## Claim C2: partial-failure semantics of GatherResources -/

/-- C2: with `all = false`, `GatherResources` always returns without
error, and every reference that is individually gatherable (well-formed
and fetchable, i.e. `gatherResource` succeeds on it in isolation) is
present as a key of the returned map, regardless of how many other
references are malformed or fail to fetch. -/
theorem gatherResources_partialFailure (w : GatherWorld) (nsName : String)
    (refs : List String) :
    ∃ m, GatherResources w nsName refs false = some m ∧
      ∀ r ∈ refs, (gatherResource w nsName r []).isSome → ∃ v, (r, v) ∈ m := by
  refine ⟨_, rfl, ?_⟩
  intro r hr hsome
  obtain ⟨v, hv⟩ := (gatherLoop_mem w nsName refs []).2 r hr hsome
  exact addIfNonEmpty_mem _ "events" w.events r v hv

/-- World for the C2 witness: the typed client serves deployments and
configmaps; everything else fails. -/
def c2World : GatherWorld :=
  { nativeGet := fun k _ _ =>
      match k with
      | .deployment => some ⟨"Deployment", none, false⟩
      | .configmap => some ⟨"ConfigMap", none, false⟩
      | _ => none,
    discover := fun _ => none,
    dynamicGet := fun _ _ _ => none,
    podsForWorkload := fun _ _ => none,
    events := none,
    listDeployments := none, listPods := none, listServices := none,
    listConfigmaps := none, listIngresses := none, listHPAs := none }

/-- Witness for C2, the spec's scenario: one invalid reference among
valid ones — the call succeeds and both valid references are present. -/
theorem gatherResources_partialFailure_witness :
    ∃ m, GatherResources c2World "default"
        ["deployment/app", "invalidref", "configmap/cfg"] false = some m ∧
      (∃ v, ("deployment/app", v) ∈ m) ∧ ∃ v, ("configmap/cfg", v) ∈ m := by
  obtain ⟨m, hm, hall⟩ := gatherResources_partialFailure c2World "default"
    ["deployment/app", "invalidref", "configmap/cfg"]
  exact ⟨m, hm,
    hall "deployment/app" (by simp) (by decide),
    hall "configmap/cfg" (by simp) (by decide)⟩

/-! ## Claim C1: secret redaction -/

/-- A secret whose data payload is non-empty. -/
def leakedSecret : K8sObject := ⟨"Secret", some [("password", "hunter2")], false⟩

/-- World exhibiting the C1 failure: the typed-client fetch fails, the
discovery + dynamic-client fallback succeeds and returns the secret with
its data intact. -/
def c1World : GatherWorld :=
  { nativeGet := fun _ _ _ => none,
    discover := fun t => if t = "secret" then some true else none,
    dynamicGet := fun _ _ _ => some leakedSecret,
    podsForWorkload := fun _ _ => none,
    events := none,
    listDeployments := none, listPods := none, listServices := none,
    listConfigmaps := none, listIngresses := none, listHPAs := none }

/-- World exhibiting the intended behaviour: the typed-client fetch
succeeds, so the secret branch of `gatherNativeResource` redacts. -/
def c1NativeWorld : GatherWorld :=
  { nativeGet := fun _ _ _ => some leakedSecret,
    discover := fun _ => none,
    dynamicGet := fun _ _ _ => none,
    podsForWorkload := fun _ _ => none,
    events := none,
    listDeployments := none, listPods := none, listServices := none,
    listConfigmaps := none, listIngresses := none, listHPAs := none }

/-- C1 (code bug): on the dynamic-client fallback path — taken exactly
when the typed-client fetch fails — `gatherResource` stores the fetched
secret object *with its data payload intact*, violating the redaction
invariant; the typed-client path on the same object redacts
(`secret.Data = nil`), showing the fallback path contradicts the code's
own "Redact secret data for security" intent. -/
theorem secretFallback_unredacted_bug :
    gatherResource c1World "default" "secret/db-creds" []
      = some [("secret/db-creds", GatheredValue.obj leakedSecret)] ∧
    leakedSecret.secretData = some [("password", "hunter2")] ∧
    gatherResource c1NativeWorld "default" "secret/db-creds" []
      = some [("secret/db-creds", GatheredValue.obj (redactSecret leakedSecret))] ∧
    (redactSecret leakedSecret).secretData = none := by
  exact ⟨rfl, rfl, rfl, rfl⟩

/-! ## pkg/k8s: the Resource Discovery Index (`discoverResource`) -/

/-- `metav1.APIResource`, restricted to the fields the scan reads. -/
structure APIResource where
  name : String
  singularName : String
  shortNames : List String
deriving DecidableEq

/-- One group of `ServerPreferredResources`: a group-version string plus
its resource entries. -/
structure APIResourceList where
  groupVersion : String
  apiResources : List APIResource
deriving DecidableEq

/-- `schema.GroupVersion`. -/
structure GroupVersion where
  group : String
  version : String
deriving DecidableEq

/-- `schema.GroupVersionResource`. -/
structure GroupVersionResource where
  group : String
  version : String
  resource : String
deriving DecidableEq

/-- `schema.ParseGroupVersion`: empty or `"/"` parses to the empty
coordinate, no slash means version-only, one slash splits group/version,
more is an error. -/
def parseGroupVersion (s : String) : Option GroupVersion :=
  if s = "" ∨ s = "/" then some ⟨"", ""⟩
  else
    match splitSlash s with
    | [v] => some ⟨"", v⟩
    | [g, v] => some ⟨g, v⟩
    | _ => none

/-- `strings.EqualFold`, modelled as character-wise ASCII lower-casing. -/
def equalFold (a b : String) : Bool := toLowerStr a == toLowerStr b

/-- `containsStringIgnoreCase` from `pkg/k8s/client.go` lines 378-385. -/
def containsStringIgnoreCase (slice : List String) (str : String) : Bool :=
  slice.any (fun s => equalFold s str)

/-- The match test of the discovery scan (`pkg/k8s/client.go` lines
114-116): token against plural name, singular name, or any short name,
case-insensitively. -/
def resourceMatches (res : APIResource) (resourceType : String) : Bool :=
  equalFold res.name resourceType || equalFold res.singularName resourceType ||
    containsStringIgnoreCase res.shortNames resourceType

/-- The scan loop of `discoverResource` (`pkg/k8s/client.go` lines
106-134): walk the groups in order, skip unparseable group versions,
and return the first matching resource entry with its GVR. -/
def discoverResourceScan :
    List APIResourceList → String → Option (APIResource × GroupVersionResource)
  | [], _ => none
  | group :: rest, resourceType =>
    match parseGroupVersion group.groupVersion with
    | none => discoverResourceScan rest resourceType
    | some gv =>
      match group.apiResources.find? (fun res => resourceMatches res resourceType) with
      | some res => some (res, ⟨gv.group, gv.version, res.name⟩)
      | none => discoverResourceScan rest resourceType

/-- `discoverResource` (`pkg/k8s/client.go` lines 86-137): consult the
per-token cache first, else scan the discovered resource list (the scan
result is also written back to the cache — irrelevant to the returned
value, which is what is modelled). -/
def discoverResource (cache : List (String × (APIResource × GroupVersionResource)))
    (resourceList : List APIResourceList) (resourceType : String) :
    Option (APIResource × GroupVersionResource) :=
  match mapLookup resourceType cache with
  | some hit => some hit
  | none => discoverResourceScan resourceList resourceType

/-! ## Claim C9: alias coherence of discovery -/

/-- A decoy entry whose short name collides with the `deploy` alias. -/
def decoyResource : APIResource := ⟨"foos", "foo", ["deploy"]⟩

/-- The deployments entry with its usual aliases. -/
def deploymentsResource : APIResource := ⟨"deployments", "deployment", ["deploy"]⟩

/-- A discovered list in which the decoy precedes the deployments entry. -/
def decoyDiscovery : List APIResourceList :=
  [⟨"apps/v1", [decoyResource, deploymentsResource]⟩]

/-- C9 counterexample: `"deploy"` and `"deployments"` both match the same
deployments entry (short name resp. plural name), yet over `decoyDiscovery`
— a legal discovered resource list — first-match-wins resolution sends
`"deploy"` to the earlier decoy entry and `"deployments"` to the
deployments entry, two different group/version/resource coordinates. -/
theorem discoverResource_alias_counterexample :
    resourceMatches deploymentsResource "deploy" = true ∧
    resourceMatches deploymentsResource "deployments" = true ∧
    discoverResource [] decoyDiscovery "deploy"
      = some (decoyResource, ⟨"apps", "v1", "foos"⟩) ∧
    discoverResource [] decoyDiscovery "deployments"
      = some (deploymentsResource, ⟨"apps", "v1", "deployments"⟩) ∧
    (discoverResource [] decoyDiscovery "deploy").map (fun p => p.2)
      ≠ (discoverResource [] decoyDiscovery "deployments").map (fun p => p.2) := by
  exact ⟨rfl, rfl, rfl, rfl, by decide⟩

lemma discoverResourceScan_unique (a : String) (g : APIResourceList) (e : APIResource)
    (gv : GroupVersion) :
    ∀ lists : List APIResourceList, g ∈ lists → e ∈ g.apiResources →
      parseGroupVersion g.groupVersion = some gv →
      resourceMatches e a = true →
      (∀ g1 ∈ lists, ∀ r ∈ g1.apiResources, resourceMatches r a = true → g1 = g ∧ r = e) →
      discoverResourceScan lists a = some (e, ⟨gv.group, gv.version, e.name⟩) := by
  intro lists
  induction lists with
  | nil => intro hg; exact absurd hg (List.not_mem_nil g)
  | cons g0 rest ih =>
    intro hg he hgv hmatch huniq
    by_cases hg0 : g0 = g
    · subst hg0
      unfold discoverResourceScan
      rw [hgv]
      cases hf : g0.apiResources.find? (fun res => resourceMatches res a) with
      | none =>
        exfalso
        have := List.find?_eq_none.mp hf e he
        rw [hmatch] at this
        exact this rfl
      | some r0 =>
        have hr0mem : r0 ∈ g0.apiResources := List.mem_of_find?_eq_some hf
        have hr0match : resourceMatches r0 a = true := by
          have h := List.find?_some hf
          simpa using h
        have := huniq g0 (List.mem_cons_self g0 rest) r0 hr0mem hr0match
        rw [this.2]
    · have hgrest : g ∈ rest := by
        rcases List.mem_cons.mp hg with h | h
        · exact absurd h.symm hg0
        · exact h
      have hnone : g0.apiResources.find? (fun res => resourceMatches res a) = none := by
        apply List.find?_eq_none.mpr
        intro r hr hmr
        exact hg0 ((huniq g0 (List.mem_cons_self g0 rest) r hr hmr).1)
      have hrest := ih hgrest he hgv hmatch
        (fun g1 hg1 r hr hmr => huniq g1 (List.mem_cons_of_mem g0 hg1) r hr hmr)
      unfold discoverResourceScan
      cases parseGroupVersion g0.groupVersion with
      | none => exact hrest
      | some gv0 =>
        rw [hnone]
        exact hrest

/-- C9 amended: two aliases of the same resource entry resolve (through a
fresh, empty cache) to the same group/version/resource coordinate
*provided the matching entry is unambiguous* — that entry, inside its
group, is the only (group, resource-entry) pair of the discovered list
matching either alias.  (First-match-wins scanning makes the unamended
claim false when an earlier entry also matches one of the aliases.) -/
theorem discoverResource_alias_amended
    (lists : List APIResourceList) (a1 a2 : String)
    (g : APIResourceList) (e : APIResource) (gv : GroupVersion)
    (hg : g ∈ lists) (he : e ∈ g.apiResources)
    (hgv : parseGroupVersion g.groupVersion = some gv)
    (h1 : resourceMatches e a1 = true) (h2 : resourceMatches e a2 = true)
    (huniq : ∀ g1 ∈ lists, ∀ r ∈ g1.apiResources,
      (resourceMatches r a1 = true ∨ resourceMatches r a2 = true) → g1 = g ∧ r = e) :
    discoverResource [] lists a1 = some (e, ⟨gv.group, gv.version, e.name⟩) ∧
    discoverResource [] lists a2 = some (e, ⟨gv.group, gv.version, e.name⟩) := by
  constructor
  · show discoverResourceScan lists a1 = _
    exact discoverResourceScan_unique a1 g e gv lists hg he hgv h1
      (fun g1 hg1 r hr hmr => huniq g1 hg1 r hr (Or.inl hmr))
  · show discoverResourceScan lists a2 = _
    exact discoverResourceScan_unique a2 g e gv lists hg he hgv h2
      (fun g1 hg1 r hr hmr => huniq g1 hg1 r hr (Or.inr hmr))

/-- A discovered list with the deployments entry alone. -/
def standardDiscovery : List APIResourceList :=
  [⟨"apps/v1", [deploymentsResource]⟩]

/-- Witness for C9: over `standardDiscovery`, the aliases `"deploy"` and
`"deployments"` both resolve to `apps/v1 deployments`. -/
theorem discoverResource_alias_amended_witness :
    discoverResource [] standardDiscovery "deploy"
      = some (deploymentsResource, ⟨"apps", "v1", "deployments"⟩) ∧
    discoverResource [] standardDiscovery "deployments"
      = some (deploymentsResource, ⟨"apps", "v1", "deployments"⟩) :=
  discoverResource_alias_amended standardDiscovery "deploy" "deployments"
    ⟨"apps/v1", [deploymentsResource]⟩ deploymentsResource ⟨"apps", "v1"⟩
    (by decide) (by decide) (by decide) (by decide) (by decide) (by decide)

/-! ## pkg/metrics: the Metrics Source Locator (`NewPrometheusClient`) -/

/-- The four failure modes of the `testConnection` liveness probe
(`pkg/metrics/prometheus.go` lines 230-254): connection error, non-200
HTTP status, undecodable body, non-"success" Prometheus status. -/
inductive ProbeFailure
  | connError
  | httpStatus (code : Nat)
  | malformedBody
  | apiError (msg : String)
deriving DecidableEq

/-- The environment of one `NewPrometheusClient` run: the explicit URL
(`""` = absent), the requested namespace, the outcome of
`detectPrometheusService`, the in-cluster test, whether the
`kubectl port-forward` subprocess starts, and the probe outcome
(`none` = success). -/
structure PromWorld where
  prometheusURL : String
  prometheusNamespace : String
  detect : Option (String × String × Int)
  inCluster : Bool
  portForwardStartOk : Bool
  probe : Option ProbeFailure

/-- `PrometheusClient` (`pkg/metrics/prometheus.go` lines 24-30):
`hasPortForwardCmd` models `portForwardCmd != nil` (with a live
process). -/
structure PromClient where
  url : String
  hasPortForwardCmd : Bool
  localPort : String
  isPortForward : Bool
deriving DecidableEq

/-- `Close` (`pkg/metrics/prometheus.go` lines 129-134): kills the
port-forward subprocess iff one was started; returns whether the kill
happened. -/
def promClose (c : PromClient) : Bool := c.hasPortForwardCmd

/-- Structural `strings.HasPrefix(u, "http")`. -/
def strStartsWithHttp (s : String) : Bool :=
  match s.data with
  | 'h' :: 't' :: 't' :: 'p' :: _ => true
  | _ => false

/-- Structural `strings.HasSuffix(u, "/")`. -/
def strEndsWithSlash (s : String) : Bool := s.data.getLast? == some '/'

/-- The URL normalization of `NewPrometheusClient` (lines 94-100):
prepend `http://` when no `http` scheme prefix, append a trailing
slash. -/
def normalizeURL (u : String) : String :=
  let u1 := if strStartsWithHttp u then u else "http://" ++ u
  if strEndsWithSlash u1 then u1 else u1 ++ "/"

/-- `NewPrometheusClient` (`pkg/metrics/prometheus.go` lines 48-126),
returning the constructor result paired with whether the port-forward
subprocess was killed before returning.  Explicit URL wins; otherwise
auto-detect, then either the in-cluster DNS URL or a port-forward to
localhost:9090; normalize; probe; on probe failure call `Close` (killing
any started tunnel) and return the error. -/
def NewPrometheusClient (w : PromWorld) : Except String PromClient × Bool :=
  match
    (if w.prometheusURL ≠ "" then
      Except.ok (w.prometheusURL, false, "", false)
    else
      match w.detect with
      | none => Except.error "failed to auto-detect Prometheus"
      | some (svcName, svcNs, svcPort) =>
        if w.inCluster then
          Except.ok ("http://" ++ svcName ++ "." ++ svcNs ++ ".svc.cluster.local:"
            ++ toString svcPort, false, "", false)
        else if w.portForwardStartOk then
          Except.ok ("http://localhost:9090", true, "9090", true)
        else
          Except.error "failed to setup port-forward" :
      Except String (String × Bool × String × Bool)) with
  | .error e => (.error e, false)
  | .ok (u, cmdStarted, localPort, isPF) =>
    let client : PromClient := ⟨normalizeURL u, cmdStarted, localPort, isPF⟩
    match w.probe with
    | some _ =>
      (.error ("failed to connect to Prometheus at " ++ client.url), promClose client)
    | none => (.ok client, false)

/-! ## Claim C8: tunnel teardown on probe failure -/

/-- C8: whenever a port-forward tunnel subprocess was started (no
explicit URL, detection succeeded, not in-cluster, subprocess start
succeeded) and the liveness probe fails in any of its four modes, the
constructor kills the tunnel (`Close` on the partially-built client)
and returns an error. -/
theorem tunnelTeardown_onProbeFailure (w : PromWorld) (d : String × String × Int)
    (f : ProbeFailure)
    (hurl : w.prometheusURL = "") (hdet : w.detect = some d)
    (hin : w.inCluster = false) (hpf : w.portForwardStartOk = true)
    (hprobe : w.probe = some f) :
    (NewPrometheusClient w).2 = true ∧
    ∃ e, (NewPrometheusClient w).1 = Except.error e := by
  obtain ⟨svcName, svcNs, svcPort⟩ := d
  unfold NewPrometheusClient
  rw [hurl, hdet, hin, hpf, hprobe]
  simp only [ne_eq, not_true_eq_false, if_false, Bool.false_eq_true, if_true]
  exact ⟨rfl, _, rfl⟩

/-- World for the C8 witness: detection finds `monitoring/prometheus-server:80`,
the run is outside the cluster, the tunnel starts, and the probe hits a
connection error. -/
def c8World : PromWorld :=
  { prometheusURL := "", prometheusNamespace := "",
    detect := some ("prometheus-server", "monitoring", 80),
    inCluster := false, portForwardStartOk := true,
    probe := some .connError }

/-- Witness for C8 at `c8World`. -/
theorem tunnelTeardown_onProbeFailure_witness :
    (NewPrometheusClient c8World).2 = true ∧
    ∃ e, (NewPrometheusClient c8World).1 = Except.error e :=
  tunnelTeardown_onProbeFailure c8World ("prometheus-server", "monitoring", 80)
    .connError rfl rfl rfl rfl rfl

end KubectlAI
